import Mathlib

/-
  Verification development for the hashed-object store of this repository.

  Shallow embedding of src/src/cpp/ripple/HashedObject.cpp:
    HashedObjectStore::store      (SQLite build, lines 111-143, and the
                                   LevelDB build, lines 35-67)
    HashedObjectStore::waitWrite  (lines 145-151)
    HashedObjectStore::bulkWrite  (lines 153-250, prepared-statement path)
    HashedObjectStore::retrieve   (lines 252-342, prepared-statement path,
                                   release build: PARANOID off)
    HashedObjectStore::import     (lines 344-412)

  Bytes are Nat values below 256, byte strings are List Nat, a uint256 hash
  is a Nat, and a uint32 ledger index is a Nat.  The digest function
  Serializer.getSHA512Half is out of scope for the repository core (the spec
  treats it as an injected cryptographic primitive), so every operation that
  mentions it is parameterised by an arbitrary digest : List Nat -> Nat.

  The collaborators TaggedCache, the negative cache and the uint256 hex
  serialisation are declared but not implemented under src/; they are
  modelled from the specification, and each such definition carries a
  doc comment saying so.  Concurrency is embedded sequentially: each
  critical section of the C++ code is one atomic Lean function.
-/

/-- Object kinds of the store.  The tag set mirrors the HashedObjectType
enumeration used by HashedObject.cpp. -/
inductive HashedObjectType where
  | hotUNKNOWN
  | hotLEDGER
  | hotTRANSACTION
  | hotACCOUNT_NODE
  | hotTRANSACTION_NODE
deriving DecidableEq, Repr

open HashedObjectType

/-- Immutable hashed object: kind, ledger index, payload bytes, hash. -/
structure HashedObject where
  type : HashedObjectType
  index : Nat
  data : List Nat
  hash : Nat
deriving DecidableEq, Repr

/-- One row of the relational backend table CommittedObjects.  The code keys
rows by the 64-char hex of the hash; hex encoding is injective on uint256,
so rows are keyed here by the hash value itself. -/
structure SqlRow where
  hash : Nat
  objType : Nat
  ledgerIndex : Nat
  objectData : List Nat
deriving DecidableEq, Repr

/-- Modelled from the spec: TaggedCache (spec 4.1), a concurrent mapping from
hash to object with dedup-on-insert.  The implementation file
containers/ripple_TaggedCache.cpp is referenced by src/ but not present, so
the cache is modelled from the specification contract; the strong/weak
residency levels are collapsed to plain residency (liveness of weak
references is not observable in a sequential embedding). -/
structure TaggedCache where
  entries : List (Nat × HashedObject)
deriving DecidableEq, Repr

namespace TaggedCache

/-- Modelled from the spec: fetch(k), hit returns the resident value. -/
def fetch (c : TaggedCache) (h : Nat) : Option HashedObject :=
  (c.entries.find? (fun e => e.1 == h)).map Prod.snd

/-- Modelled from the spec: touch(k) is true exactly when k is resident. -/
def touch (c : TaggedCache) (h : Nat) : Bool :=
  (c.fetch h).isSome

/-- Modelled from the spec: canonicalize(k, v) returns the resident value and
true when k is already resident, otherwise inserts v and returns false.
Result: (found, canonical value, new cache). -/
def canonicalize (c : TaggedCache) (h : Nat) (o : HashedObject) :
    Bool × HashedObject × TaggedCache :=
  match c.fetch h with
  | some e => (true, e, c)
  | none => (false, o, ⟨(h, o) :: c.entries⟩)

end TaggedCache

/-- Modelled from the spec: NegativeCache (spec 4.2), a bounded-TTL set of
hashes known missing from the backend.  Entries pair a hash with its
insertion time; the implementation is referenced by src/ but not present. -/
structure NegativeCache where
  ttl : Nat
  entries : List (Nat × Nat)
deriving DecidableEq, Repr

namespace NegativeCache

/-- Modelled from the spec: membership probe at a given time; an entry is
present while its age has not exceeded the TTL. -/
def isPresentAt (c : NegativeCache) (h now : Nat) : Bool :=
  c.entries.any (fun e => e.1 == h && now ≤ e.2 + c.ttl)

/-- Modelled from the spec: add a hash at the given time. -/
def add (c : NegativeCache) (h now : Nat) : NegativeCache :=
  ⟨c.ttl, (h, now) :: c.entries⟩

/-- Modelled from the spec: remove a hash. -/
def del (c : NegativeCache) (h : Nat) : NegativeCache :=
  ⟨c.ttl, c.entries.filter (fun e => e.1 != h)⟩

end NegativeCache

/-- State of one HashedObjectStore instance (SQLite build): the tagged cache,
the negative cache, the optional backend (none models a null
theApp->getHashNodeDB()), the write set, the write-pending flag, the write
generation, a counter of jtWRITE jobs handed to the job queue, and a counter
of fatal or error level log lines. -/
structure StoreState where
  cache : TaggedCache
  negCache : NegativeCache
  db : Option (List SqlRow)
  writeSet : List HashedObject
  writePending : Bool
  writeGeneration : Nat
  scheduledJobs : Nat
  errorLogCount : Nat
deriving DecidableEq, Repr

namespace HashedObjectStore

/-- HashedObjectStore::store, SQLite build (HashedObject.cpp lines 111-143).
The digest parameter stands for Serializer::getSHA512Half, used by the
release-disabled assert on line 124 and therefore not consulted here.
Returns the C++ return value paired with the post state. -/
def store (_digest : List Nat → Nat) (st : StoreState) (type : HashedObjectType)
    (index : Nat) (data : List Nat) (hash : Nat) : Bool × StoreState :=
  match st.db with
  | none => (true, st)
  | some _ =>
    if st.cache.touch hash then
      (false, st)
    else
      let object : HashedObject := ⟨type, index, data, hash⟩
      let c := st.cache.canonicalize hash object
      let st1 :=
        if c.1 then
          { st with cache := c.2.2 }
        else
          let stq := { st with cache := c.2.2, writeSet := st.writeSet ++ [object] }
          if stq.writePending then stq
          else { stq with writePending := true, scheduledJobs := stq.scheduledJobs + 1 }
      (true, { st1 with negCache := st1.negCache.del hash })

/-- The loop condition of HashedObjectStore::waitWrite (lines 145-151): the
caller stays blocked while mWritePending holds and mWriteGeneration still
equals the generation snapshot taken under the mutex. -/
def waitWriteBlocked (st : StoreState) (gen : Nat) : Bool :=
  st.writePending && (st.writeGeneration == gen)

/-- The critical section of one pass of HashedObjectStore::bulkWrite
(lines 160-171): swap the write set into a local buffer, increment the
generation, notify all waiters, and clear the pending flag exactly when the
buffer came out empty.  Returns the post state and the swapped-out buffer. -/
def drainPass (st : StoreState) : StoreState × List HashedObject :=
  ({ st with
      writeSet := [],
      writeGeneration := st.writeGeneration + 1,
      writePending := if st.writeSet.isEmpty then false else st.writePending },
   st.writeSet)

/-- The one-letter ObjType code bound by bulkWrite (lines 191-198): byte
values of L, T, A, N, with U for the default arm. -/
def typeCharOf : HashedObjectType → Nat
  | hotLEDGER => 76
  | hotTRANSACTION => 84
  | hotACCOUNT_NODE => 65
  | hotTRANSACTION_NODE => 78
  | hotUNKNOWN => 85

/-- The CommittedObjects row bound for one object by bulkWrite
(lines 200-203). -/
def rowOf (o : HashedObject) : SqlRow :=
  ⟨o.hash, typeCharOf o.type, o.index, o.data⟩

/-- Effect of stepping the prepared INSERT OR IGNORE statement once: a row
whose key is already present is ignored, otherwise it is appended. -/
def sqlInsertOrIgnore (db : List SqlRow) (r : SqlRow) : List SqlRow :=
  if db.any (fun x => x.hash == r.hash) then db else db ++ [r]

/-- The per-batch body of bulkWrite (lines 184-214): BEGIN, then for each
object bind and step the insert; a failing step is logged at fatal level and
the loop continues with the next object; END commits.  stepFails models
which rows the backend fails on.  Returns the rows after the batch and the
number of fatal log lines emitted. -/
def putMany (stepFails : HashedObject → Bool) :
    List SqlRow → List HashedObject → List SqlRow × Nat
  | db, [] => (db, 0)
  | db, o :: rest =>
    if stepFails o then
      let r := putMany stepFails db rest
      (r.1, r.2 + 1)
    else
      putMany stepFails (sqlInsertOrIgnore db (rowOf o)) rest

/-- Apply one putMany batch to the store state. -/
def applyPutMany (stepFails : HashedObject → Bool) (st : StoreState)
    (set : List HashedObject) : StoreState :=
  match st.db with
  | none => st
  | some db =>
    let r := putMany stepFails db set
    { st with db := some r.1, errorLogCount := st.errorLogCount + r.2 }

/-- Observable events of one bulkWrite invocation: swapSignal is the critical
section that swaps the buffer out, increments the generation to newGen and
notifies all waiters; backendWrite is the put_many call for that buffer. -/
inductive BatchEvent where
  | swapSignal (buffer : List HashedObject) (newGen : Nat)
  | backendWrite (buffer : List HashedObject)
deriving DecidableEq, Repr

/-- The loop of HashedObjectStore::bulkWrite (lines 153-250), with explicit
fuel.  Each iteration runs the critical section, returns if the buffer was
empty, and otherwise writes the buffer to the backend and loops. -/
def bulkWriteLoop (stepFails : HashedObject → Bool) :
    Nat → StoreState → List BatchEvent × StoreState
  | 0, st => ([], st)
  | Nat.succ fuel, st =>
    let p := drainPass st
    if p.2.isEmpty then
      ([BatchEvent.swapSignal p.2 p.1.writeGeneration], p.1)
    else
      let st2 := applyPutMany stepFails p.1 p.2
      let rest := bulkWriteLoop stepFails fuel st2
      (BatchEvent.swapSignal p.2 p.1.writeGeneration ::
        BatchEvent.backendWrite p.2 :: rest.1, rest.2)

/-- HashedObjectStore::bulkWrite.  In the sequential embedding the first pass
empties the write set and the backend write does not refill it, so the loop
always terminates within two passes; fuel 2 is exact. -/
def bulkWrite (stepFails : HashedObject → Bool) (st : StoreState) :
    List BatchEvent × StoreState :=
  bulkWriteLoop stepFails 2 st

/-- Decode the ObjType column as done by the switch in retrieve
(lines 323-335): L, T, A, N are accepted, anything else is the corrupt
default arm. -/
def kindOfChar (c : Nat) : Option HashedObjectType :=
  if c == 76 then some hotLEDGER
  else if c == 84 then some hotTRANSACTION
  else if c == 65 then some hotACCOUNT_NODE
  else if c == 78 then some hotTRANSACTION_NODE
  else none

/-- Result of one retrieve call: the returned object, the post state, whether
the backend was queried, and whether an error-level corruption log line was
emitted. -/
structure RetrieveResult where
  result : Option HashedObject
  state : StoreState
  dbQueried : Bool
  loggedError : Bool
deriving DecidableEq, Repr

/-- HashedObjectStore::retrieve, SQLite build, release (PARANOID off)
(lines 252-342): positive cache, then negative cache, then backend; a miss
adds to the negative cache; a row with an unrecognised kind byte is logged,
added to the negative cache and dropped; a good row is decoded,
canonicalised into the cache and returned.  now is the clock value used for
negative-cache entries. -/
def retrieve (st : StoreState) (h : Nat) (now : Nat) : RetrieveResult :=
  match st.cache.fetch h with
  | some obj => ⟨some obj, st, false, false⟩
  | none =>
    if st.negCache.isPresentAt h now then ⟨none, st, false, false⟩
    else
      match st.db with
      | none => ⟨none, st, false, false⟩
      | some db =>
        match db.find? (fun r => r.hash == h) with
        | none => ⟨none, { st with negCache := st.negCache.add h now }, true, false⟩
        | some row =>
          match kindOfChar row.objType with
          | none =>
            ⟨none, { st with negCache := st.negCache.add h now,
                             errorLogCount := st.errorLogCount + 1 }, true, true⟩
          | some k =>
            let obj : HashedObject := ⟨k, row.ledgerIndex, row.objectData, h⟩
            let c := st.cache.canonicalize h obj
            ⟨some c.2.1, { st with cache := c.2.2 }, true, false⟩

/-- One row of a foreign CommittedObjects table read by import; hash 0 models
a row whose Hash column parses to the zero sentinel. -/
structure ForeignRow where
  hash : Nat
  objType : Nat
  ledgerIndex : Nat
  objectData : List Nat
deriving DecidableEq, Repr

/-- Body of the import loop for one foreign row (HashedObject.cpp
lines 352-407): skip the zero hash with a warning; count rows that already
resolve through retrieve; otherwise decode the kind with the retrieve switch
(the default arm logs and leaves htype at hotUNKNOWN but does not skip the
row), then admit the row through store unless its digest mismatches the
hash.  The accumulator is (countYes, countNo, state). -/
def importOne (digest : List Nat → Nat) (now : Nat)
    (acc : Nat × Nat × StoreState) (row : ForeignRow) : Nat × Nat × StoreState :=
  let st := acc.2.2
  if row.hash == 0 then acc
  else
    let r := retrieve st row.hash now
    if r.result.isSome then (acc.1, acc.2.1 + 1, r.state)
    else
      let htype := (kindOfChar row.objType).getD hotUNKNOWN
      if digest row.objectData == row.hash then
        let s := store digest r.state htype row.ledgerIndex row.objectData row.hash
        (acc.1 + 1, acc.2.1, s.2)
      else
        (acc.1, acc.2.1, r.state)

/-- HashedObjectStore::import (lines 344-412): fold the import loop over the
foreign rows, then wait for the write barrier (a pure blocking point in this
embedding) and return countYes together with the final state. -/
def importDB (digest : List Nat → Nat) (now : Nat) (st : StoreState)
    (rows : List ForeignRow) : Nat × StoreState :=
  let r := rows.foldl (importOne digest now) (0, 0, st)
  (r.1, r.2.2)

end HashedObjectStore

/-- Hex digit character code: 0-9 then lowercase a-f. -/
def hexDigitCode (n : Nat) : Nat :=
  if n < 10 then 48 + n else 87 + n

/-- Modelled from the spec: uint256 GetHex (spec 3: a Hash is serialisable as
lowercase hex), the 64-character hex form of a 256-bit hash, most
significant nibble first.  The uint256 implementation is referenced by src/
but not present. -/
def uint256GetHex (h : Nat) : List Nat :=
  (List.range 64).map (fun i => hexDigitCode (h / 16 ^ (63 - i) % 16))

/-- The raw 32-byte big-endian form of a 256-bit hash, for comparison with
the key the code actually writes. -/
def raw32 (h : Nat) : List Nat :=
  (List.range 32).map (fun i => h / 256 ^ (31 - i) % 256)

/-- Serializer::add32: four bytes, big endian (network order). -/
def be32 (n : Nat) : List Nat :=
  [n / 2 ^ 24 % 256, n / 2 ^ 16 % 256, n / 2 ^ 8 % 256, n % 256]

/-- Modelled from the spec: the byte written by add8(static_cast(type)) in
the LevelDB store path.  The numeric values of the HashedObjectType
enumerators live in HashedObject.h, which is not under src/; the spec
(section 3) assigns the on-disk one-letter codes L, T, A, N, U to the five
kinds, so the cast is modelled as those byte values. -/
def kindByte : HashedObjectType → Nat
  | hotLEDGER => 76
  | hotTRANSACTION => 84
  | hotACCOUNT_NODE => 65
  | hotTRANSACTION_NODE => 78
  | hotUNKNOWN => 85

namespace HashedObjectStore

/-- The key-value pair written by the LevelDB store path (HashedObject.cpp
lines 53-58): key is hash.GetHex(), value is the Serializer contents
add8(type), add32(index), addRaw(data). -/
def leveldbPutRecord (o : HashedObject) : List Nat × List Nat :=
  (uint256GetHex o.hash, kindByte o.type :: (be32 o.index ++ o.data))

/-- State of a HashedObjectStore in the LevelDB build: cache, negative cache
and the optional LevelDB handle holding key-value pairs in put order. -/
structure LvlState where
  cache : TaggedCache
  negCache : NegativeCache
  db : Option (List (List Nat × List Nat))
deriving DecidableEq, Repr

/-- HashedObjectStore::store, LevelDB build (lines 35-67): no-db mode returns
true unchanged; a cache touch returns false; otherwise canonicalize, and on
fresh insertion put the serialised record synchronously, then drop the hash
from the negative cache. -/
def storeLevelDB (_digest : List Nat → Nat) (st : LvlState)
    (type : HashedObjectType) (index : Nat) (data : List Nat) (hash : Nat) :
    Bool × LvlState :=
  match st.db with
  | none => (true, st)
  | some db =>
    if st.cache.touch hash then
      (false, st)
    else
      let object : HashedObject := ⟨type, index, data, hash⟩
      let c := st.cache.canonicalize hash object
      let st1 :=
        if c.1 then
          { st with cache := c.2.2 }
        else
          { st with cache := c.2.2, db := some (db ++ [leveldbPutRecord object]) }
      (true, { st1 with negCache := st1.negCache.del hash })

/-- Repeated sequential store with identical arguments; returns the final
state and the list of return values in call order. -/
def storeN (digest : List Nat → Nat) :
    Nat → StoreState → HashedObjectType → Nat → List Nat → Nat →
    StoreState × List Bool
  | 0, st, _, _, _, _ => (st, [])
  | Nat.succ n, st, t, i, p, h =>
    let r := store digest st t i p h
    let rest := storeN digest n r.2 t i p h
    (rest.1, r.1 :: rest.2)

/-- Number of queued objects carrying a given hash. -/
def countHash (l : List HashedObject) (h : Nat) : Nat :=
  (l.filter (fun o => o.hash == h)).length

/-- Number of backend rows carrying a given hash. -/
def countRowsL (db : List SqlRow) (h : Nat) : Nat :=
  (db.filter (fun r => r.hash == h)).length

/-- Number of backend rows carrying a given hash, none meaning no backend. -/
def countRows (db : Option (List SqlRow)) (h : Nat) : Nat :=
  match db with
  | none => 0
  | some rows => countRowsL rows h

/-- Well-formedness of the positive cache under a digest function: every
resident object is keyed by the digest of its payload and carries one of the
four persistable kinds.  store maintains this for every caller that
respects the store precondition (the assert on line 124) and never stores
hotUNKNOWN, and retrieve maintains it unconditionally. -/
def CacheWF (digest : List Nat → Nat) (c : TaggedCache) : Prop :=
  ∀ p ∈ c.entries, digest p.2.data = p.1 ∧ p.2.hash = p.1 ∧ p.2.type ≠ hotUNKNOWN

/-- Well-formedness of the backend under a digest function: every row is
keyed by the digest of its payload. -/
def DbWF (digest : List Nat → Nat) (db : List SqlRow) : Prop :=
  ∀ r ∈ db, digest r.objectData = r.hash

/-- The batcher invariant: whenever the pending flag is clear, the write
queue is empty. -/
def BatcherInv (st : StoreState) : Prop :=
  st.writePending = false → st.writeSet = []

end HashedObjectStore

open HashedObjectStore

theorem NegativeCache.isPresentAt_del (c : NegativeCache) (h now : Nat) :
    (c.del h).isPresentAt h now = false := by
  simp only [NegativeCache.del, NegativeCache.isPresentAt, List.any_eq_false]
  intro e he
  have hmem := List.mem_filter.mp he
  simp only [bne_iff_ne, ne_eq] at hmem
  simp [hmem.2]

theorem NegativeCache.isPresentAt_add_self (c : NegativeCache) (h now now2 : Nat)
    (hle : now2 ≤ now + c.ttl) :
    (c.add h now).isPresentAt h now2 = true := by
  simp [NegativeCache.add, NegativeCache.isPresentAt, hle]

theorem TaggedCache.fetch_mem (c : TaggedCache) (h : Nat) (o : HashedObject)
    (hf : c.fetch h = some o) : (h, o) ∈ c.entries := by
  unfold TaggedCache.fetch at hf
  cases hfind : c.entries.find? (fun e => e.1 == h) with
  | none => rw [hfind] at hf; simp at hf
  | some e =>
    rw [hfind] at hf
    simp only [Option.map_some', Option.some.injEq] at hf
    have hm := List.mem_of_find?_eq_some hfind
    have hk0 := List.find?_some hfind
    have hk2 : e.1 = h := by simpa using hk0
    have : (h, o) = e := by
      cases e
      simp only [Prod.mk.injEq]
      exact ⟨hk2.symm, hf.symm⟩
    rw [this]
    exact hm

theorem TaggedCache.touch_false_fetch (c : TaggedCache) (h : Nat)
    (ht : c.touch h = false) : c.fetch h = none := by
  unfold TaggedCache.touch at ht
  exact Option.not_isSome_iff_eq_none.mp (by simp [ht])

theorem TaggedCache.fetch_cons_self (entries : List (Nat × HashedObject))
    (h : Nat) (o : HashedObject) :
    TaggedCache.fetch ⟨(h, o) :: entries⟩ h = some o := by
  simp [TaggedCache.fetch, List.find?_cons]

theorem store_no_db (digest : List Nat → Nat) (st : StoreState)
    (t : HashedObjectType) (i : Nat) (p : List Nat) (h : Nat)
    (hdb : st.db = none) :
    store digest st t i p h = (true, st) := by
  unfold HashedObjectStore.store
  rw [hdb]

theorem store_touch_true (digest : List Nat → Nat) (st : StoreState)
    (t : HashedObjectType) (i : Nat) (p : List Nat) (h : Nat) (db : List SqlRow)
    (hdb : st.db = some db) (ht : st.cache.touch h = true) :
    store digest st t i p h = (false, st) := by
  unfold HashedObjectStore.store
  rw [hdb]
  simp [ht]

theorem store_touch_false (digest : List Nat → Nat) (st : StoreState)
    (t : HashedObjectType) (i : Nat) (p : List Nat) (h : Nat) (db : List SqlRow)
    (hdb : st.db = some db) (ht : st.cache.touch h = false) :
    store digest st t i p h =
      (true,
        { st with
          cache := ⟨(h, ⟨t, i, p, h⟩) :: st.cache.entries⟩,
          writeSet := st.writeSet ++ [⟨t, i, p, h⟩],
          writePending := true,
          scheduledJobs :=
            if st.writePending then st.scheduledJobs else st.scheduledJobs + 1,
          negCache := st.negCache.del h }) := by
  have hf : st.cache.fetch h = none := TaggedCache.touch_false_fetch st.cache h ht
  unfold HashedObjectStore.store
  rw [hdb]
  simp only [ht, Bool.false_eq_true, if_false, TaggedCache.canonicalize, hf]
  by_cases hp : st.writePending <;> simp [hp]

theorem applyPutMany_frame (f : HashedObject → Bool) (st : StoreState)
    (set : List HashedObject) :
    (applyPutMany f st set).writeSet = st.writeSet ∧
    (applyPutMany f st set).writePending = st.writePending ∧
    (applyPutMany f st set).writeGeneration = st.writeGeneration ∧
    (applyPutMany f st set).cache = st.cache ∧
    (applyPutMany f st set).negCache = st.negCache := by
  unfold applyPutMany
  cases st.db <;> simp

theorem bulkWrite_events (f : HashedObject → Bool) (st : StoreState) :
    (bulkWrite f st).1 =
      if st.writeSet.isEmpty then
        [BatchEvent.swapSignal [] (st.writeGeneration + 1)]
      else
        [BatchEvent.swapSignal st.writeSet (st.writeGeneration + 1),
         BatchEvent.backendWrite st.writeSet,
         BatchEvent.swapSignal [] (st.writeGeneration + 2)] := by
  cases hws : st.writeSet with
  | nil =>
    simp [bulkWrite, bulkWriteLoop, drainPass, hws]
  | cons a l =>
    have hfr := applyPutMany_frame f
      ({ st with writeSet := [], writeGeneration := st.writeGeneration + 1,
                 writePending := if st.writeSet.isEmpty then false else st.writePending })
      st.writeSet
    simp only [bulkWrite, bulkWriteLoop, drainPass, hws]
    simp [bulkWriteLoop, drainPass, hws, hfr.1, hfr.2.2.1,
      applyPutMany_frame, List.isEmpty_cons]

theorem bulkWrite_fields (f : HashedObject → Bool) (st : StoreState) :
    (bulkWrite f st).2.cache = st.cache ∧
    (bulkWrite f st).2.negCache = st.negCache ∧
    (bulkWrite f st).2.writeSet = [] ∧
    (bulkWrite f st).2.writePending = false ∧
    st.writeGeneration < (bulkWrite f st).2.writeGeneration ∧
    (∀ db, st.db = some db →
      (bulkWrite f st).2.db = some (putMany f db st.writeSet).1 ∧
      (bulkWrite f st).2.errorLogCount =
        st.errorLogCount + (putMany f db st.writeSet).2) := by
  cases hws : st.writeSet with
  | nil =>
    cases hdb : st.db <;>
      simp [bulkWrite, bulkWriteLoop, drainPass, applyPutMany, putMany, hws, hdb]
  | cons a l =>
    cases hdb : st.db with
    | none =>
      simp [bulkWrite, bulkWriteLoop, drainPass, applyPutMany, hws, hdb]
      omega
    | some db =>
      simp [bulkWrite, bulkWriteLoop, drainPass, applyPutMany, hws, hdb]
      omega

/-- A concrete stand-in digest used by witnesses: the payload length. -/
def dig0 : List Nat → Nat := fun l => l.length

/-- A concrete store state with an empty cache, an empty negative cache with
the default 120 second TTL, and an empty configured backend. -/
def st0 : StoreState := ⟨⟨[]⟩, ⟨120, []⟩, some [], [], false, 0, 0, 0⟩

/-- A concrete store state with no backend configured. -/
def stNoDb : StoreState := ⟨⟨[]⟩, ⟨120, []⟩, none, [], false, 0, 0, 0⟩

/-- C10: with no backend configured, store returns true immediately and the
whole store state, cache, negative cache and write queue included, is
unchanged. -/
theorem claim10_store_no_backend_frame (digest : List Nat → Nat)
    (st : StoreState) (t : HashedObjectType) (i : Nat) (p : List Nat) (h : Nat)
    (hdb : st.db = none) :
    store digest st t i p h = (true, st) :=
  store_no_db digest st t i p h hdb

theorem claim10_witness :
    store dig0 stNoDb hotTRANSACTION 42 [1, 2, 3] 3 = (true, stNoDb) :=
  claim10_store_no_backend_frame dig0 stNoDb hotTRANSACTION 42 [1, 2, 3] 3 rfl

/-- C2: with a backend configured, store returns false exactly when the hash
was already resident in the cache at call time; otherwise it returns true,
the object joins the write queue exactly when canonicalize found no resident
value for the hash, and the hash is removed from the negative cache before
returning. -/
theorem claim2_store_return_semantics (digest : List Nat → Nat)
    (st : StoreState) (t : HashedObjectType) (i : Nat) (p : List Nat) (h : Nat)
    (db : List SqlRow) (hdb : st.db = some db) :
    ((store digest st t i p h).1 = false ↔ st.cache.touch h = true) ∧
    (st.cache.touch h = false →
      (store digest st t i p h).1 = true ∧
      ((store digest st t i p h).2.writeSet = st.writeSet ++ [⟨t, i, p, h⟩] ↔
        (st.cache.canonicalize h ⟨t, i, p, h⟩).1 = false) ∧
      (store digest st t i p h).2.negCache = st.negCache.del h ∧
      ∀ now, (store digest st t i p h).2.negCache.isPresentAt h now = false) := by
  cases ht : st.cache.touch h with
  | true =>
    rw [store_touch_true digest st t i p h db hdb ht]
    simp [ht]
  | false =>
    rw [store_touch_false digest st t i p h db hdb ht]
    have hf : st.cache.fetch h = none := TaggedCache.touch_false_fetch st.cache h ht
    refine ⟨by simp, fun _ => ⟨rfl, ?_, rfl, ?_⟩⟩
    · simp [TaggedCache.canonicalize, hf]
    · intro now
      exact NegativeCache.isPresentAt_del st.negCache h now

theorem claim2_witness :
    ((store dig0 st0 hotTRANSACTION 42 [1, 2, 3] 3).1 = false ↔
      st0.cache.touch 3 = true) ∧
    (st0.cache.touch 3 = false →
      (store dig0 st0 hotTRANSACTION 42 [1, 2, 3] 3).1 = true ∧
      ((store dig0 st0 hotTRANSACTION 42 [1, 2, 3] 3).2.writeSet =
          st0.writeSet ++ [⟨hotTRANSACTION, 42, [1, 2, 3], 3⟩] ↔
        (st0.cache.canonicalize 3 ⟨hotTRANSACTION, 42, [1, 2, 3], 3⟩).1 = false) ∧
      (store dig0 st0 hotTRANSACTION 42 [1, 2, 3] 3).2.negCache =
        st0.negCache.del 3 ∧
      ∀ now, (store dig0 st0 hotTRANSACTION 42 [1, 2, 3] 3).2.negCache.isPresentAt
        3 now = false) :=
  claim2_store_return_semantics dig0 st0 hotTRANSACTION 42 [1, 2, 3] 3 [] rfl

/-- C5: waitWrite stays blocked exactly while the pending flag holds and the
generation still equals the snapshot, so it unblocks once pending clears or
the generation advances past the snapshot; every bulkWrite drain pass
increments the generation and signals waiters in the same critical section
that swaps the queue out (the swapSignal event), and that event precedes the
backend put_many event for the same buffer; in particular a waiter whose
snapshot predates a drain pass is unblocked by it. -/
theorem claim5_wait_write_barrier (st : StoreState) (gen : Nat)
    (f : HashedObject → Bool) :
    (waitWriteBlocked st gen = false ↔
      (st.writePending = false ∨ st.writeGeneration ≠ gen)) ∧
    ((bulkWrite f st).1 =
      if st.writeSet.isEmpty then
        [BatchEvent.swapSignal [] (st.writeGeneration + 1)]
      else
        [BatchEvent.swapSignal st.writeSet (st.writeGeneration + 1),
         BatchEvent.backendWrite st.writeSet,
         BatchEvent.swapSignal [] (st.writeGeneration + 2)]) ∧
    (drainPass st).1.writeGeneration = st.writeGeneration + 1 ∧
    (drainPass st).2 = st.writeSet ∧
    waitWriteBlocked (drainPass st).1 st.writeGeneration = false := by
  refine ⟨?_, bulkWrite_events f st, rfl, rfl, ?_⟩
  · unfold waitWriteBlocked
    cases hp : st.writePending <;> simp [Nat.beq_eq_true_eq]
  · unfold waitWriteBlocked drainPass
    simp

/-- C9: the batcher invariant, pending clear implies empty queue, is
preserved by store and by every drain pass; store leaves the pending flag
set after any push (scheduling a drain job when the flag was clear), and a
drain pass clears pending only when its swapped-out buffer was empty. -/
theorem claim9_batcher_invariant (digest : List Nat → Nat) (st : StoreState)
    (t : HashedObjectType) (i : Nat) (p : List Nat) (h : Nat)
    (f : HashedObject → Bool) (hinv : BatcherInv st) :
    BatcherInv (store digest st t i p h).2 ∧
    ((store digest st t i p h).2.writeSet ≠ st.writeSet →
      (store digest st t i p h).2.writePending = true ∧
      (st.writePending = false →
        (store digest st t i p h).2.scheduledJobs = st.scheduledJobs + 1)) ∧
    BatcherInv (drainPass st).1 ∧
    ((drainPass st).1.writePending = false → (drainPass st).2 = []) ∧
    BatcherInv (bulkWrite f st).2 := by
  have hbw : BatcherInv (bulkWrite f st).2 := by
    intro _
    exact (bulkWrite_fields f st).2.2.1
  have hdp : BatcherInv (drainPass st).1 := by
    intro _
    simp [drainPass]
  have hdp2 : (drainPass st).1.writePending = false → (drainPass st).2 = [] := by
    unfold drainPass
    cases hws : st.writeSet with
    | nil => simp
    | cons a l =>
      simp only [List.isEmpty_cons, Bool.false_eq_true, if_false]
      intro hp
      exact absurd (hinv hp) (by simp [hws])
  cases hdb : st.db with
  | none =>
    rw [store_no_db digest st t i p h hdb]
    exact ⟨hinv, by simp, hdp, hdp2, hbw⟩
  | some db =>
    cases ht : st.cache.touch h with
    | true =>
      rw [store_touch_true digest st t i p h db hdb ht]
      exact ⟨hinv, by simp, hdp, hdp2, hbw⟩
    | false =>
      rw [store_touch_false digest st t i p h db hdb ht]
      refine ⟨?_, ?_, hdp, hdp2, hbw⟩
      · intro hcontra
        simp at hcontra
      · intro _
        refine ⟨rfl, fun hp => ?_⟩
        simp [hp]

theorem claim9_witness :
    BatcherInv (store dig0 st0 hotTRANSACTION 42 [1, 2, 3] 3).2 ∧
    ((store dig0 st0 hotTRANSACTION 42 [1, 2, 3] 3).2.writeSet ≠ st0.writeSet →
      (store dig0 st0 hotTRANSACTION 42 [1, 2, 3] 3).2.writePending = true ∧
      (st0.writePending = false →
        (store dig0 st0 hotTRANSACTION 42 [1, 2, 3] 3).2.scheduledJobs =
          st0.scheduledJobs + 1)) ∧
    BatcherInv (drainPass st0).1 ∧
    ((drainPass st0).1.writePending = false → (drainPass st0).2 = []) ∧
    BatcherInv (bulkWrite (fun _ => false) st0).2 :=
  claim9_batcher_invariant dig0 st0 hotTRANSACTION 42 [1, 2, 3] 3
    (fun _ => false) (fun _ => rfl)

theorem kindOfChar_mem (c : Nat) (k : HashedObjectType)
    (hk : kindOfChar c = some k) :
    k ∈ [hotLEDGER, hotTRANSACTION, hotACCOUNT_NODE, hotTRANSACTION_NODE] := by
  unfold kindOfChar at hk
  split_ifs at hk <;> simp_all

/-- C1: on a well-formed state, a retrieve hit always returns an object whose
payload digests to the queried hash and whose kind lies in the closed set
L, T, A, N; and when the backend row for the hash carries a kind byte
outside that set, retrieve logs a corruption error, adds the hash to the
negative cache and returns none.  The well-formedness hypotheses express
exactly what store maintains for callers that respect its digest
precondition and never pass the Unknown kind. -/
theorem claim1_retrieve_integrity (digest : List Nat → Nat) (st : StoreState)
    (h now : Nat)
    (hc : CacheWF digest st.cache)
    (hdbwf : ∀ db, st.db = some db → DbWF digest db) :
    (∀ o, (retrieve st h now).result = some o →
      digest o.data = h ∧
      o.type ∈ [hotLEDGER, hotTRANSACTION, hotACCOUNT_NODE, hotTRANSACTION_NODE]) ∧
    (∀ db row, st.db = some db →
      st.cache.fetch h = none →
      st.negCache.isPresentAt h now = false →
      db.find? (fun r => r.hash == h) = some row →
      kindOfChar row.objType = none →
      (retrieve st h now).result = none ∧
      (retrieve st h now).loggedError = true ∧
      (retrieve st h now).state.negCache.isPresentAt h now = true) := by
  constructor
  · intro o ho
    unfold retrieve at ho
    cases hf : st.cache.fetch h with
    | some e =>
      simp only [hf] at ho
      have hmem := TaggedCache.fetch_mem st.cache h e hf
      have hwf := hc (h, e) hmem
      have he : e = o := by simpa using ho
      subst he
      refine ⟨hwf.1, ?_⟩
      have hne := hwf.2.2
      cases htype : e.type <;> simp_all
    | none =>
      cases hneg : st.negCache.isPresentAt h now with
      | true => simp [hf, hneg] at ho
      | false =>
        cases hdb : st.db with
        | none => simp [hf, hneg, hdb] at ho
        | some db =>
          cases hfind : db.find? (fun r => r.hash == h) with
          | none => simp [hf, hneg, hdb, hfind] at ho
          | some row =>
            cases hkind : kindOfChar row.objType with
            | none => simp [hf, hneg, hdb, hfind, hkind] at ho
            | some k =>
              simp only [hf, hneg, hdb, hfind, hkind, Bool.false_eq_true,
                if_false, TaggedCache.canonicalize] at ho
              have hrh : row.hash = h := by
                have := List.find?_some hfind
                simpa using this
              have hrmem := List.mem_of_find?_eq_some hfind
              have hdwf := hdbwf db hdb row hrmem
              have ho2 : (⟨k, row.ledgerIndex, row.objectData, h⟩ : HashedObject)
                  = o := by simpa using ho
              subst ho2
              exact ⟨by simpa [hrh] using hdwf, kindOfChar_mem row.objType k hkind⟩
  · intro db row hdb hf hneg hfind hkind
    have hr : retrieve st h now =
        ⟨none,
          { st with
            negCache := st.negCache.add h now,
            errorLogCount := st.errorLogCount + 1 },
          true, true⟩ := by
      unfold retrieve
      simp [hf, hneg, hdb, hfind, hkind]
    rw [hr]
    exact ⟨rfl, rfl, NegativeCache.isPresentAt_add_self st.negCache h now now
      (Nat.le_add_right now st.negCache.ttl)⟩

/-- Concrete state for the claim 1 witness: an empty cache and a backend row
keyed by hash 5 whose payload has dig0 digest 5 but whose kind byte 88 is
outside the closed set. -/
def st1 : StoreState :=
  ⟨⟨[]⟩, ⟨120, []⟩, some [⟨5, 88, 1, [9, 9, 9, 9, 9]⟩], [], false, 0, 0, 0⟩

theorem claim1_witness :
    (retrieve st1 5 0).result = none ∧
    (retrieve st1 5 0).loggedError = true ∧
    (retrieve st1 5 0).state.negCache.isPresentAt 5 0 = true :=
  (claim1_retrieve_integrity dig0 st1 5 0
      (by intro p hp; simp [st1] at hp)
      (by
        intro db heq r hr
        simp only [st1, Option.some.injEq] at heq
        subst heq
        simp only [List.mem_singleton] at hr
        subst hr
        rfl)).2
    [⟨5, 88, 1, [9, 9, 9, 9, 9]⟩] ⟨5, 88, 1, [9, 9, 9, 9, 9]⟩ rfl rfl rfl rfl rfl

/-- C4: for a hash that is in no cache and absent from the configured
backend, the first retrieve queries the backend, returns none and records
the hash in the negative cache; a second retrieve within the TTL returns
none without a backend query. -/
theorem claim4_negative_caching (st : StoreState) (h now1 now2 : Nat)
    (db : List SqlRow)
    (hdb : st.db = some db)
    (hnorow : db.find? (fun r => r.hash == h) = none)
    (hcache : st.cache.fetch h = none)
    (hneg : st.negCache.isPresentAt h now1 = false)
    (httl : now2 ≤ now1 + st.negCache.ttl) :
    (retrieve st h now1).result = none ∧
    (retrieve st h now1).dbQueried = true ∧
    (retrieve st h now1).state.negCache.isPresentAt h now2 = true ∧
    (retrieve (retrieve st h now1).state h now2).result = none ∧
    (retrieve (retrieve st h now1).state h now2).dbQueried = false := by
  have hr1 : retrieve st h now1 =
      ⟨none, { st with negCache := st.negCache.add h now1 }, true, false⟩ := by
    unfold retrieve
    simp [hcache, hneg, hdb, hnorow]
  rw [hr1]
  have hpres : (st.negCache.add h now1).isPresentAt h now2 = true :=
    NegativeCache.isPresentAt_add_self st.negCache h now1 now2 httl
  refine ⟨rfl, rfl, hpres, ?_, ?_⟩ <;>
    · unfold retrieve
      simp only [hcache, hpres]
      simp

theorem claim4_witness :
    (retrieve st0 7 0).result = none ∧
    (retrieve st0 7 0).dbQueried = true ∧
    (retrieve st0 7 0).state.negCache.isPresentAt 7 50 = true ∧
    (retrieve (retrieve st0 7 0).state 7 50).result = none ∧
    (retrieve (retrieve st0 7 0).state 7 50).dbQueried = false :=
  claim4_negative_caching st0 7 0 50 [] rfl rfl rfl rfl (by decide)

theorem store_db_eq (digest : List Nat → Nat) (st : StoreState)
    (t : HashedObjectType) (i : Nat) (p : List Nat) (h : Nat) :
    (store digest st t i p h).2.db = st.db := by
  cases hdb : st.db with
  | none => rw [store_no_db digest st t i p h hdb]; exact hdb
  | some db =>
    cases ht : st.cache.touch h with
    | true => rw [store_touch_true digest st t i p h db hdb ht]; exact hdb
    | false => rw [store_touch_false digest st t i p h db hdb ht]; exact hdb

theorem store_touch_after (digest : List Nat → Nat) (st : StoreState)
    (t : HashedObjectType) (i : Nat) (p : List Nat) (h : Nat) (db : List SqlRow)
    (hdb : st.db = some db) :
    (store digest st t i p h).2.cache.touch h = true := by
  cases ht : st.cache.touch h with
  | true => rw [store_touch_true digest st t i p h db hdb ht]; exact ht
  | false =>
    rw [store_touch_false digest st t i p h db hdb ht]
    simp [TaggedCache.touch, TaggedCache.fetch_cons_self]

theorem storeN_stable (digest : List Nat → Nat) (t : HashedObjectType)
    (i : Nat) (p : List Nat) (h : Nat) (n : Nat) :
    ∀ (st : StoreState) (db : List SqlRow), st.db = some db →
      st.cache.touch h = true →
      storeN digest n st t i p h = (st, List.replicate n false) := by
  induction n with
  | zero => intro st db hdb ht; simp [storeN]
  | succ n ih =>
    intro st db hdb ht
    have hs := store_touch_true digest st t i p h db hdb ht
    simp only [storeN, hs]
    rw [ih st db hdb ht]
    simp [List.replicate_succ]

theorem countHash_append_single (l : List HashedObject) (o : HashedObject)
    (h : Nat) :
    countHash (l ++ [o]) h = countHash l h + (if o.hash == h then 1 else 0) := by
  unfold countHash
  rw [List.filter_append]
  cases ho : o.hash == h <;> simp [List.filter, ho]

theorem countRowsL_any_false (db : List SqlRow) (k : Nat)
    (hp : db.any (fun x => x.hash == k) = false) : countRowsL db k = 0 := by
  unfold countRowsL
  simp only [List.any_eq_false] at hp
  simp [List.filter_eq_nil_iff.mpr hp]

theorem countRowsL_insert (db : List SqlRow) (r : SqlRow) (h : Nat)
    (hle : countRowsL db h ≤ 1) : countRowsL (sqlInsertOrIgnore db r) h ≤ 1 := by
  unfold sqlInsertOrIgnore
  cases hp : db.any (fun x => x.hash == r.hash) with
  | true => simpa using hle
  | false =>
    simp only [Bool.false_eq_true, if_false]
    have happ : countRowsL (db ++ [r]) h =
        countRowsL db h + (if r.hash == h then 1 else 0) := by
      unfold countRowsL
      rw [List.filter_append]
      cases hrh : r.hash == h <;> simp [List.filter, hrh]
    rw [happ]
    cases hrh : r.hash == h with
    | false => simpa using hle
    | true =>
      have hk : r.hash = h := by simpa using hrh
      have h0 : countRowsL db h = 0 := by
        rw [← hk]
        exact countRowsL_any_false db r.hash hp
      simp [h0]

theorem putMany_countRows (f : HashedObject → Bool) (h : Nat)
    (set : List HashedObject) :
    ∀ (db : List SqlRow), countRowsL db h ≤ 1 →
      countRowsL (putMany f db set).1 h ≤ 1 := by
  induction set with
  | nil => intro db hle; simpa [putMany] using hle
  | cons o rest ih =>
    intro db hle
    unfold putMany
    cases hfo : f o with
    | true => simpa [hfo] using ih db hle
    | false =>
      simp only [hfo, Bool.false_eq_true, if_false]
      exact ih _ (countRowsL_insert db (rowOf o) h hle)

/-- C3: with a backend configured and the hash equal to the digest of the
payload, a sequence of N+1 identical store calls returns false on every call
after the first, enqueues the object for the backend at most once, and after
the batcher drains, the backend holds at most one row for that hash. -/
theorem claim3_store_idempotence (digest : List Nat → Nat) (st : StoreState)
    (t : HashedObjectType) (i : Nat) (p : List Nat) (h : Nat) (n : Nat)
    (db : List SqlRow)
    (_hdig : h = digest p)
    (hdb : st.db = some db)
    (hws : countHash st.writeSet h = 0)
    (hrows : countRowsL db h = 0) :
    (storeN digest (n + 1) st t i p h).2.tail = List.replicate n false ∧
    countHash (storeN digest (n + 1) st t i p h).1.writeSet h ≤ 1 ∧
    countRows (bulkWrite (fun _ => false)
      (storeN digest (n + 1) st t i p h).1).2.db h ≤ 1 := by
  have hfinal : ∀ (stf : StoreState) (dbf : List SqlRow), stf.db = some dbf →
      countHash stf.writeSet h ≤ 1 → countRowsL dbf h ≤ 1 →
      countRows (bulkWrite (fun _ => false) stf).2.db h ≤ 1 := by
    intro stf dbf hdbf hcf hrf
    have hflds := (bulkWrite_fields (fun _ => false) stf).2.2.2.2.2 dbf hdbf
    rw [hflds.1]
    unfold countRows
    exact putMany_countRows (fun _ => false) h stf.writeSet dbf hrf
  cases ht : st.cache.touch h with
  | true =>
    have hs := store_touch_true digest st t i p h db hdb ht
    have hrest := storeN_stable digest t i p h n st db hdb ht
    have hval : storeN digest (n + 1) st t i p h =
        (st, false :: List.replicate n false) := by
      simp only [storeN, hs]
      rw [hrest]
    rw [hval]
    refine ⟨rfl, by simp [hws], ?_⟩
    exact hfinal st db hdb (by simp [hws]) (by simp [hrows])
  | false =>
    have hs := store_touch_false digest st t i p h db hdb ht
    set st2 := (store digest st t i p h).2 with hst2
    have hdb2 : st2.db = some db := by
      rw [hst2, store_db_eq]; exact hdb
    have ht2 : st2.cache.touch h = true := by
      rw [hst2]; exact store_touch_after digest st t i p h db hdb
    have hrest := storeN_stable digest t i p h n st2 db hdb2 ht2
    have hval : storeN digest (n + 1) st t i p h =
        (st2, (store digest st t i p h).1 :: List.replicate n false) := by
      simp only [storeN]
      rw [hrest]
    rw [hval]
    have hws2 : countHash st2.writeSet h = 1 := by
      rw [hst2, hs]
      show countHash (st.writeSet ++ [⟨t, i, p, h⟩]) h = 1
      rw [countHash_append_single]
      simp [hws]
    exact ⟨rfl, by simp [hws2], hfinal st2 db hdb2 (by simp [hws2]) (by simp [hrows])⟩

theorem claim3_witness :
    (storeN dig0 3 st0 hotTRANSACTION 42 [1, 2, 3] 3).2.tail =
      List.replicate 2 false ∧
    countHash (storeN dig0 3 st0 hotTRANSACTION 42 [1, 2, 3] 3).1.writeSet 3 ≤ 1 ∧
    countRows (bulkWrite (fun _ => false)
      (storeN dig0 3 st0 hotTRANSACTION 42 [1, 2, 3] 3).1).2.db 3 ≤ 1 :=
  claim3_store_idempotence dig0 st0 hotTRANSACTION 42 [1, 2, 3] 3 2 [] rfl rfl
    rfl rfl

theorem putMany_logs (f : HashedObject → Bool) (set : List HashedObject) :
    ∀ db : List SqlRow, (putMany f db set).2 = (set.filter f).length := by
  induction set with
  | nil => intro db; simp [putMany]
  | cons o rest ih =>
    intro db
    unfold putMany
    cases hfo : f o with
    | true => simp [hfo, ih, List.filter_cons]
    | false => simp [hfo, ih, List.filter_cons]

theorem sqlInsertOrIgnore_any (db : List SqlRow) (r : SqlRow) (k : Nat)
    (hk : db.any (fun x => x.hash == k) = true ∨ r.hash = k) :
    (sqlInsertOrIgnore db r).any (fun x => x.hash == k) = true := by
  unfold sqlInsertOrIgnore
  cases hp : db.any (fun x => x.hash == r.hash) with
  | true =>
    simp only [if_true]
    cases hk with
    | inl h1 => exact h1
    | inr h2 => subst h2; exact hp
  | false =>
    simp only [Bool.false_eq_true, if_false, List.any_append]
    cases hk with
    | inl h1 => simp [h1]
    | inr h2 => subst h2; simp

theorem putMany_any (f : HashedObject → Bool) (k : Nat)
    (set : List HashedObject) :
    ∀ db : List SqlRow, db.any (fun x => x.hash == k) = true →
      (putMany f db set).1.any (fun x => x.hash == k) = true := by
  induction set with
  | nil => intro db hdb; simpa [putMany] using hdb
  | cons o rest ih =>
    intro db hdb
    unfold putMany
    cases hfo : f o with
    | true => simpa [hfo] using ih db hdb
    | false =>
      simp only [hfo, Bool.false_eq_true, if_false]
      exact ih _ (sqlInsertOrIgnore_any db (rowOf o) k (Or.inl hdb))

theorem putMany_mem (f : HashedObject → Bool) (set : List HashedObject) :
    ∀ (db : List SqlRow) (o : HashedObject), o ∈ set → f o = false →
      (putMany f db set).1.any (fun x => x.hash == o.hash) = true := by
  induction set with
  | nil => intro db o hmem _; simp at hmem
  | cons a rest ih =>
    intro db o hmem hfo
    unfold putMany
    rcases List.mem_cons.mp hmem with heq | hmem2
    · subst heq
      simp only [hfo, Bool.false_eq_true, if_false]
      exact putMany_any f o.hash rest _
        (sqlInsertOrIgnore_any db (rowOf o) o.hash (Or.inr rfl))
    · cases hfa : f a with
      | true => simpa [hfa] using ih db o hmem2 hfo
      | false =>
        simp only [hfa, Bool.false_eq_true, if_false]
        exact ih _ o hmem2 hfo

/-- C6 as amended: when insert steps fail while put_many drains a batch, each
failure is logged at fatal level and the drain continues with the remaining
rows, which are still committed (the batch is not aborted); the cache is
untouched, so the batch objects stay resident, and the write generation
still advances, so every waitWrite waiter with an older snapshot unblocks. -/
theorem claim6_put_many_step_failure (f : HashedObject → Bool)
    (st : StoreState) (db : List SqlRow) (hdb : st.db = some db)
    (hq : ∀ o ∈ st.writeSet, st.cache.fetch o.hash = some o) :
    (bulkWrite f st).2.errorLogCount =
      st.errorLogCount + (st.writeSet.filter f).length ∧
    (∀ o ∈ st.writeSet, f o = false →
      ∃ rows, (bulkWrite f st).2.db = some rows ∧
        rows.any (fun x => x.hash == o.hash) = true) ∧
    (bulkWrite f st).2.cache = st.cache ∧
    (∀ o ∈ st.writeSet, (bulkWrite f st).2.cache.fetch o.hash = some o) ∧
    st.writeGeneration < (bulkWrite f st).2.writeGeneration ∧
    (∀ gen, waitWriteBlocked (bulkWrite f st).2 gen = false) := by
  have hflds := bulkWrite_fields f st
  have hsome := hflds.2.2.2.2.2 db hdb
  refine ⟨?_, ?_, hflds.1, ?_, hflds.2.2.2.2.1, ?_⟩
  · rw [hsome.2, putMany_logs]
  · intro o hmem hfo
    exact ⟨(putMany f db st.writeSet).1, hsome.1,
      putMany_mem f st.writeSet db o hmem hfo⟩
  · intro o hmem
    rw [hflds.1]
    exact hq o hmem
  · intro gen
    unfold waitWriteBlocked
    rw [hflds.2.2.2.1]
    simp

/-- Batch objects used by the claim 6 input. -/
def oA : HashedObject := ⟨hotLEDGER, 1, [5], 11⟩

/-- Second batch object used by the claim 6 input. -/
def oB : HashedObject := ⟨hotLEDGER, 2, [6], 12⟩

/-- A step-failure pattern that fails exactly the insert of oA. -/
def failA : HashedObject → Bool := fun o => o.hash == 11

/-- A store state whose write queue holds oA and oB, both canonicalised into
the cache, with an empty configured backend. -/
def stBatch : StoreState :=
  ⟨⟨[(11, oA), (12, oB)]⟩, ⟨120, []⟩, some [], [oA, oB], true, 0, 1, 0⟩

theorem claim6_counterexample :
    (putMany failA [] [oA, oB]).2 = 1 ∧
    (putMany failA [] [oA, oB]).1 = [rowOf oB] ∧
    ¬((putMany failA [] [oA, oB]).1 = []) := by decide

theorem claim6_witness :
    (bulkWrite failA stBatch).2.errorLogCount =
      stBatch.errorLogCount + (stBatch.writeSet.filter failA).length ∧
    (∀ o ∈ stBatch.writeSet, failA o = false →
      ∃ rows, (bulkWrite failA stBatch).2.db = some rows ∧
        rows.any (fun x => x.hash == o.hash) = true) ∧
    (bulkWrite failA stBatch).2.cache = stBatch.cache ∧
    (∀ o ∈ stBatch.writeSet,
      (bulkWrite failA stBatch).2.cache.fetch o.hash = some o) ∧
    stBatch.writeGeneration < (bulkWrite failA stBatch).2.writeGeneration ∧
    (∀ gen, waitWriteBlocked (bulkWrite failA stBatch).2 gen = false) :=
  claim6_put_many_step_failure failA stBatch [] rfl (by decide)

/-- C7, evaluated at the failing input: a foreign table with a single row
whose kind byte 88 is outside the closed set but whose payload digests to
its nonzero hash.  The import loop logs the invalid kind yet falls through,
admits the row via store with kind hotUNKNOWN, counts it as imported and
leaves it in the cache and the write queue; the claim and the spec say such
a row is discarded and not admitted. -/
theorem claim7_import_invalid_kind_not_discarded :
    (importDB dig0 0 st0 [⟨2, 88, 5, [9, 9]⟩]).1 = 1 ∧
    (importDB dig0 0 st0 [⟨2, 88, 5, [9, 9]⟩]).2.writeSet =
      [⟨hotUNKNOWN, 5, [9, 9], 2⟩] ∧
    (importDB dig0 0 st0 [⟨2, 88, 5, [9, 9]⟩]).2.cache.fetch 2 =
      some ⟨hotUNKNOWN, 5, [9, 9], 2⟩ := by decide

/-- Concrete LevelDB-build state with an empty configured database. -/
def lst0 : LvlState := ⟨⟨[]⟩, ⟨120, []⟩, some []⟩

theorem claim8_counterexample :
    (storeLevelDB dig0 lst0 hotLEDGER 1 [171] 3).2.db =
      some [(uint256GetHex 3, [76, 0, 0, 0, 1, 171])] ∧
    (uint256GetHex 3).length = 64 ∧
    uint256GetHex 3 ≠ raw32 3 := by decide

/-- C8 as amended: every object persisted by the ordered-engine (LevelDB)
path of store is written under the key hash.GetHex(), the 64-character hex
form of the hash rather than its raw 32 bytes, and with the value
kind byte, then the 4-byte big-endian ledger index, then the payload; for
the four persistable kinds the kind byte lies in the one-letter code set. -/
theorem claim8_ordered_engine_record (digest : List Nat → Nat) (st : LvlState)
    (t : HashedObjectType) (i : Nat) (p : List Nat) (h : Nat)
    (db : List (List Nat × List Nat)) (hdb : st.db = some db) :
    (storeLevelDB digest st t i p h).2.db = some db ∨
    ((storeLevelDB digest st t i p h).2.db =
        some (db ++ [(uint256GetHex h, kindByte t :: (be32 i ++ p))]) ∧
      (uint256GetHex h).length = 64 ∧
      (t ≠ hotUNKNOWN → kindByte t ∈ [76, 84, 65, 78])) := by
  cases ht : st.cache.touch h with
  | true =>
    left
    unfold storeLevelDB
    simp [hdb, ht]
  | false =>
    right
    have hf := TaggedCache.touch_false_fetch st.cache h ht
    unfold storeLevelDB
    simp only [hdb, ht, Bool.false_eq_true, if_false, TaggedCache.canonicalize, hf]
    refine ⟨rfl, ?_, ?_⟩
    · simp [uint256GetHex]
    · intro hne
      cases t <;> simp_all [kindByte]

theorem claim8_witness :
    (storeLevelDB dig0 lst0 hotLEDGER 1 [171] 3).2.db = some [] ∨
    ((storeLevelDB dig0 lst0 hotLEDGER 1 [171] 3).2.db =
        some ([] ++ [(uint256GetHex 3, kindByte hotLEDGER :: (be32 1 ++ [171]))]) ∧
      (uint256GetHex 3).length = 64 ∧
      (hotLEDGER ≠ hotUNKNOWN → kindByte hotLEDGER ∈ [76, 84, 65, 78])) :=
  claim8_ordered_engine_record dig0 lst0 hotLEDGER 1 [171] 3 [] rfl
